import Mathlib

/-
Shallow embedding of the SNSPP repository core (snspp/solver/spp_solver.py,
snspp/solver/saga.py, lasso.py, ssnsp/solver/opt_problem.py) over exact
rationals (and reals where the code uses square roots / real powers).

Vectors are lists of rationals; matrices are lists of row vectors.
-/

namespace Snspp

/-- Dot product of two vectors (componentwise product, summed). -/
def dot (u v : List ℚ) : ℚ := (List.zipWith (· * ·) u v).sum

/-- Componentwise sum of two vectors. -/
def vecAdd (u v : List ℚ) : List ℚ := List.zipWith (· + ·) u v

/-- Componentwise difference of two vectors. -/
def vecSub (u v : List ℚ) : List ℚ := List.zipWith (· - ·) u v

/-- Componentwise product of two vectors. -/
def vecMul (u v : List ℚ) : List ℚ := List.zipWith (· * ·) u v

/-- Scalar multiple of a vector. -/
def smul (c : ℚ) (v : List ℚ) : List ℚ := v.map (fun a => c * a)

/-- Matrix-vector product `A @ x` (rows of `A` dotted with `x`). -/
def matVec (A : List (List ℚ)) (x : List ℚ) : List ℚ := A.map (fun r => dot r x)

/-- Transposed matrix-vector product `A.T @ v = Σ_i v_i * row_i`,
padded to length `n`. -/
def matTvec (A : List (List ℚ)) (v : List ℚ) (n : ℕ) : List ℚ :=
  (List.zipWith (fun c r => smul c r) v A).foldr vecAdd (List.replicate n 0)

/-- Squared Euclidean norm `‖v‖²` (exact, `np.linalg.norm(v)**2`). -/
def sqnorm (v : List ℚ) : ℚ := dot v v

/-- `np.sign` on rationals. -/
def qsign (v : ℚ) : ℚ := if 0 < v then 1 else if v < 0 then -1 else 0

/-! ## The 1-norm regularizer (`class Norm1` in lasso.py) -/

namespace Norm1

/-- `Norm1.eval`: `lambda1 * ||x||_1`. -/
def eval (lam : ℚ) (x : List ℚ) : ℚ := lam * (x.map (fun v => |v|)).sum

/-- `Norm1.prox`: `l = alpha*lambda1; np.sign(x) * np.maximum(abs(x) - l, 0)`. -/
def prox (lam : ℚ) (x : List ℚ) (alpha : ℚ) : List ℚ :=
  let l := alpha * lam
  x.map (fun v => qsign v * max (|v| - l) 0)

/-- `Norm1.jacobian_prox` diagonal: `(abs(x) > alpha*lambda1).astype(int)`. -/
def jacobian_prox (lam : ℚ) (x : List ℚ) (alpha : ℚ) : List ℚ :=
  let l := alpha * lam
  x.map (fun v => if l < |v| then 1 else 0)

/-- `Norm1.moreau`: `alpha*eval(z) + 0.5*||z - x||²` with `z = prox(x, alpha)`. -/
def moreau (lam : ℚ) (x : List ℚ) (alpha : ℚ) : ℚ :=
  let z := prox lam x alpha
  alpha * eval lam z + (1/2) * sqnorm (vecSub z x)

end Norm1

/-- C1: For the 1-norm regularizer, for every vector `x`, step size `α > 0` and
regularization parameter `λ > 0`, the proximal operator is the componentwise
soft-threshold `sign(x)·max(|x| − αλ, 0)`; in particular with `λ = 1`, `α = 2`,
`prox([3, −1, 0.5, −2.5]) = [1, 0, 0, −0.5]`. -/
theorem C1_prox_soft_threshold (x : List ℚ) (alpha lam : ℚ)
    (halpha : 0 < alpha) (hlam : 0 < lam) :
    Norm1.prox lam x alpha = x.map (fun v => qsign v * max (|v| - alpha * lam) 0) ∧
    Norm1.prox 1 [3, -1, 1/2, -5/2] 2 = [1, 0, 0, -(1/2)] := by
  constructor
  · rfl
  · simp only [Norm1.prox, qsign, List.map]
    norm_num [abs_of_pos, abs_of_neg, max_def]

/-- Witness for C1: instantiated at `x = [3, −1, 1/2, −5/2]`, `α = 2`, `λ = 1`. -/
theorem C1_prox_soft_threshold_witness :
    Norm1.prox 1 [3, -1, 1/2, -5/2] 2 = [1, 0, 0, -(1/2)] :=
  (C1_prox_soft_threshold [3, -1, 1/2, -5/2] 2 1 (by norm_num) (by norm_num)).2

/-! ## Dual starting point (`get_xi_start_point` in spp_solver.py) -/

/-- `get_xi_start_point`: the automatically created dual starting value,
one block of length `m_i` per sample, chosen by the loss name:
`logistic ↦ -0.5·ones`, `tstudent ↦ ones`, `huber`/`pseudohuber`/default ↦ zeros. -/
def get_xi_start_point (name : String) (m : List ℕ) : List (List ℚ) :=
  if name = "logistic" then m.map (fun mi => List.replicate mi (-(1/2)))
  else if name = "tstudent" then m.map (fun mi => List.replicate mi 1)
  else if name = "huber" then m.map (fun mi => List.replicate mi 0)
  else if name = "pseudohuber" then m.map (fun mi => List.replicate mi 0)
  else m.map (fun mi => List.replicate mi 0)

/-- `stochastic_prox_point` line 240-241: when the caller passes no dual
starting value (`xi is None`), the dual is created by `get_xi_start_point`. -/
def initial_xi (xiOpt : Option (List (List ℚ))) (name : String) (m : List ℕ) :
    List (List ℚ) :=
  xiOpt.getD (get_xi_start_point name m)

/-- C9 counterexample: for the (supported) logistic loss with one scalar sample,
the automatically created starting dual is `[-1/2]`, not the zero vector. -/
theorem C9_xi_start_not_zero_counterexample :
    initial_xi none "logistic" [1] = [[-(1/2)]] ∧
    initial_xi none "logistic" [1] ≠ [[0]] := by
  constructor
  · rfl
  · intro h
    have h0 : ([-(1/2)] : List ℚ) = [0] := by
      have := congrArg (fun l => l.getD 0 []) h
      simpa [initial_xi, get_xi_start_point] using this
    have h1 : (-(1/2) : ℚ) = 0 := by
      have := congrArg (fun l => l.getD 0 0) h0
      simpa using this
    norm_num at h1

/-- C9 (amended): when the caller passes no dual starting value, the created
dual is loss-dependent: `-1/2`-blocks for `logistic`, `1`-blocks for
`tstudent`, and zero blocks for every other loss name. -/
theorem C9_xi_start_blocks (name : String) (m : List ℕ)
    (hl : name ≠ "logistic") (ht : name ≠ "tstudent") :
    initial_xi none name m = m.map (fun mi => List.replicate mi 0) ∧
    initial_xi none "logistic" m = m.map (fun mi => List.replicate mi (-(1/2))) ∧
    initial_xi none "tstudent" m = m.map (fun mi => List.replicate mi 1) := by
  refine ⟨?_, rfl, rfl⟩
  simp only [initial_xi, Option.getD, get_xi_start_point, if_neg hl, if_neg ht]
  split <;> [rfl; skip]
  split <;> rfl

/-- Witness for C9 (amended): instantiated at `name = "huber"`, `m = [2, 1]`. -/
theorem C9_xi_start_blocks_witness :
    initial_xi none "huber" [2, 1] = [[0, 0], [0]] ∧
    initial_xi none "logistic" [2, 1] = [[-(1/2), -(1/2)], [-(1/2)]] ∧
    initial_xi none "tstudent" [2, 1] = [[1, 1], [1]] :=
  C9_xi_start_blocks "huber" [2, 1] (by simp) (by simp)

/-! ## Parameter handling (`get_default_newton_params`, `check_newton_params`,
`get_default_spp_params`, the `params.update` call in `stochastic_prox_point`,
and the parameter defaulting in `saga`) -/

/-- Parameters of the semismooth Newton subproblem solver
(`newton_params` dictionary). -/
structure NewtonParams where
  tau : ℚ
  eta : ℚ
  rho : ℚ
  mu : ℚ
  cg_max_iter : ℕ
  max_iter : ℕ
deriving DecidableEq

/-- `get_default_newton_params`: `tau=.9, eta=1e-5, rho=.5, mu=.4,
cg_max_iter=12, max_iter=20`. -/
def get_default_newton_params : NewtonParams :=
  ⟨9/10, 1/100000, 1/2, 2/5, 12, 20⟩

/-- `check_newton_params`: the four assertions
`0 < mu < 0.5`, `0 < eta < 1`, `0 < tau ≤ 1`, `0 < rho < 1`. -/
def check_newton_params (p : NewtonParams) : Prop :=
  (0 < p.mu ∧ p.mu < 1/2) ∧ (0 < p.eta ∧ p.eta < 1) ∧
  (0 < p.tau ∧ p.tau ≤ 1) ∧ (0 < p.rho ∧ p.rho < 1)

instance (p : NewtonParams) : Decidable (check_newton_params p) := by
  unfold check_newton_params; infer_instance

/-- `problem.solve` in ssnsp/solver/opt_problem.py: the solver-name dispatch;
any other name raises `ValueError("Not a known solver option")`. -/
def known_solver (s : String) : Prop :=
  s = "ssnsp" ∨ s = "saga_pure" ∨ s = "saga" ∨ s = "adagrad" ∨ s = "warm_ssnsp"

instance (s : String) : Decidable (known_solver s) := by
  unfold known_solver; infer_instance

/-- A solve configuration as seen by the entry-point validation code. -/
structure SolveConfig where
  newton : NewtonParams
  alpha : ℚ
  x0_len : ℕ
  ncols : ℕ
  solver : String
  batch_size : ℤ

/-- The invalid-argument checks the code actually performs on entry:
`check_newton_params` and `alpha > 0` (solve_subproblem lines 418-419),
the starting-point dimension assert (stochastic_prox_point line 204),
and the solver-name dispatch (opt_problem.solve lines 45-58).
No check anywhere examines `batch_size`. -/
def entry_checks (c : SolveConfig) : Prop :=
  check_newton_params c.newton ∧ 0 < c.alpha ∧ c.x0_len = c.ncols ∧
  known_solver c.solver

instance (c : SolveConfig) : Decidable (entry_checks c) := by
  unfold entry_checks; infer_instance

/-- C8 counterexample: a configuration with `batch_size = 0 < 1` and all other
values in range passes every invalid-argument check the code performs, so a
`batch_size < 1` does not fail with an invalid-argument error. -/
theorem C8_batch_size_unchecked_counterexample :
    entry_checks ⟨get_default_newton_params, 1, 3, 3, "ssnsp", 0⟩ ∧
    (⟨get_default_newton_params, 1, 3, 3, "ssnsp", (0 : ℤ)⟩ : SolveConfig).batch_size < 1 := by
  constructor
  · refine ⟨⟨⟨?_, ?_⟩, ⟨?_, ?_⟩, ⟨?_, ?_⟩, ?_, ?_⟩, ?_, rfl, Or.inl rfl⟩ <;> norm_num [get_default_newton_params]
  · norm_num

/-- C8 (amended): every out-of-range Newton parameter (`μ`, `η`, `τ`, `ρ`),
a step size `α ≤ 0`, a starting point whose length differs from the number of
columns of `A`, and an unknown solver name are each rejected by the entry
checks; `batch_size`, however, is never validated. -/
theorem C8_out_of_range_rejected (c : SolveConfig)
    (h : c.newton.mu ≤ 0 ∨ 1/2 ≤ c.newton.mu ∨ c.newton.eta ≤ 0 ∨ 1 ≤ c.newton.eta ∨
         c.newton.tau ≤ 0 ∨ 1 < c.newton.tau ∨ c.newton.rho ≤ 0 ∨ 1 ≤ c.newton.rho ∨
         c.alpha ≤ 0 ∨ c.x0_len ≠ c.ncols ∨ ¬ known_solver c.solver) :
    ¬ entry_checks c := by
  intro hc
  obtain ⟨⟨⟨hmu1, hmu2⟩, ⟨heta1, heta2⟩, ⟨htau1, htau2⟩, hrho1, hrho2⟩, ha, hd, hs⟩ := hc
  rcases h with h | h | h | h | h | h | h | h | h | h | h <;>
    first
      | exact absurd h (not_le.mpr hmu1)
      | exact absurd h (not_le.mpr hmu2)
      | exact absurd h (not_le.mpr heta1)
      | exact absurd h (not_le.mpr heta2)
      | exact absurd h (not_le.mpr htau1)
      | exact absurd h (not_lt.mpr htau2)
      | exact absurd h (not_le.mpr hrho1)
      | exact absurd h (not_le.mpr hrho2)
      | exact absurd h (not_le.mpr ha)
      | exact h hd
      | exact h hs

/-- Witness for C8 (amended): a configuration with `μ = 0.6` is rejected. -/
theorem C8_out_of_range_rejected_witness :
    ¬ entry_checks ⟨⟨9/10, 1/100000, 1/2, 3/5, 12, 20⟩, 1, 3, 3, "ssnsp", 4⟩ :=
  C8_out_of_range_rejected ⟨⟨9/10, 1/100000, 1/2, 3/5, 12, 20⟩, 1, 3, 3, "ssnsp", 4⟩
    (Or.inr (Or.inl (by norm_num)))

/-! ## Theoretical step size (`snspp_theoretical_step_size`, `derive_L`) -/

/-- Real dot product, for the row-norm computations done in floating point. -/
def dotR (u v : List ℝ) : ℝ := (List.zipWith (· * ·) u v).sum

/-- `np.linalg.norm(f.A, axis=1)**2`: the list of squared row norms of `A`. -/
def rowNormSq (A : List (List ℝ)) : List ℝ := A.map (fun r => dotR r r)

/-- `np.max` of a nonempty list (`0` on the empty list). -/
noncomputable def listMax : List ℝ → ℝ
  | [] => 0
  | h :: t => t.foldl max h

/-- `np.mean` of a list. -/
noncomputable def listMean (l : List ℝ) : ℝ := l.sum / l.length

/-- Modelled from the spec: `derive_L` from snspp/helper/utils.py, which is
absent from src. Spec §4.9: `L_i` is a loss-family constant, ¼ for the
logistic loss and 2 for the squared loss (other families unspecified, 0 here;
the theorems below never rely on the unspecified branch). -/
noncomputable def derive_L (name : String) : ℝ :=
  if name = "logistic" then 1/4 else if name = "squared" then 2 else 0

/-- `snspp_theoretical_step_size(f, b, m, eta)`:
`normA = ||A_i||²` rowwise, `M = 0` if convex else `max γ · max normA`,
`L = L_i·mean normA`, `L̃ = L_i·max normA`, `term1 = 2L+M`,
`term2 = (1+m/√(2b))·L̃ + max(M, L)`, `a = (1/eta)·max(term1, term2)`,
returning `1/a`. -/
noncomputable def snspp_theoretical_step_size (A : List (List ℝ)) (name : String)
    (convex : Bool) (gammas : List ℝ) (b m eta : ℝ) : ℝ :=
  let normA := rowNormSq A
  let M := if convex then 0 else listMax gammas * listMax normA
  let L_i := derive_L name
  let L := L_i * listMean normA
  let tildeL := L_i * listMax normA
  let term1 := 2 * L + M
  let term2 := (1 + m / Real.sqrt (2 * b)) * tildeL + max M L
  let a := (1/eta) * max term1 term2
  1/a

/-- C4 counterexample: for the squared loss with `A = [[1]]` (so `L = L̃ = 2`,
`M = 0`, `term1 = 4`), `b = 2`, `m = 10` (so `term2 = (1+10/√4)·2+2 = 14`) and
`η_sched = 1/2`, the code returns `1/((1/η)·14) = 1/28`, whereas the claimed
formula `1/(η·max(term1,term2)) = 1/(0.5·14)` gives `1/7 ≠ 1/28`. -/
theorem C4_step_size_counterexample :
    snspp_theoretical_step_size [[1]] "squared" true [] 2 10 (1/2) = 1/28 ∧
    snspp_theoretical_step_size [[1]] "squared" true [] 2 10 (1/2) ≠
      1 / ((1/2) * max (2 * (2 * 1) + 0) ((1 + 10 / Real.sqrt (2 * 2)) * (2 * 1) + max 0 (2 * 1))) := by
  have hs : Real.sqrt (2 * 2) = 2 := by
    rw [show (2 * 2 : ℝ) = 2 ^ 2 by norm_num, Real.sqrt_sq (by norm_num)]
  have hdL : derive_L "squared" = 2 := by
    simp [derive_L]
  have h1 : snspp_theoretical_step_size [[1]] "squared" true [] 2 10 (1/2) = 1/28 := by
    simp only [snspp_theoretical_step_size, rowNormSq, dotR, listMax, listMean,
      hdL, List.map, List.zipWith, List.sum, List.foldl, List.length, hs]
    norm_num
  refine ⟨h1, ?_⟩
  rw [h1, hs]
  norm_num

/-- C4 (amended): the default step size equals
`η_sched / max(term1, term2)` — the code computes `a = (1/η_sched)·max(term1,
term2)` and returns `1/a` — with `term1`, `term2`, `L`, `L̃`, `M` exactly as
the claim states them; it is not `1/(η_sched · max(term1, term2))`. -/
theorem C4_step_size_formula (A : List (List ℝ)) (name : String)
    (convex : Bool) (gammas : List ℝ) (b m eta : ℝ) :
    snspp_theoretical_step_size A name convex gammas b m eta =
      eta / max (2 * (derive_L name * listMean (rowNormSq A)) +
                 (if convex then 0 else listMax gammas * listMax (rowNormSq A)))
                ((1 + m / Real.sqrt (2 * b)) * (derive_L name * listMax (rowNormSq A)) +
                 max (if convex then 0 else listMax gammas * listMax (rowNormSq A))
                     (derive_L name * listMean (rowNormSq A))) := by
  simp only [snspp_theoretical_step_size]
  rw [one_div, one_div, mul_inv, inv_inv, ← div_eq_mul_inv]

/-! ## Step-size policy of the outer loop (spp_solver.py lines 350-353) -/

/-- The step size entering outer iteration `t`: `alphaSeq t0 = alpha`, and at
the end of iteration `t` the code sets
`alpha_t = params['alpha']/(iter_t + 2)**0.51` exactly when
`f.convex and not params['reduce_variance']`, else leaves it unchanged. -/
noncomputable def alphaSeq (convex reduce_variance : Bool) (alpha : ℝ) : ℕ → ℝ
  | 0 => alpha
  | t + 1 =>
      if convex = true ∧ reduce_variance = false then
        alpha / ((t : ℝ) + 2) ^ (0.51 : ℝ)
      else alphaSeq convex reduce_variance alpha t

/-- C6: with variance reduction disabled and a convex loss, the step size used
at outer iteration `t+1` is `α/(t+2)^0.51`; in every other configuration the
step size stays at its initial value `α` for all iterations. -/
theorem C6_step_size_policy (convex reduce_variance : Bool) (alpha : ℝ) (t : ℕ) :
    (convex = true ∧ reduce_variance = false →
      alphaSeq convex reduce_variance alpha (t + 1) = alpha / ((t : ℝ) + 2) ^ (0.51 : ℝ)) ∧
    (¬(convex = true ∧ reduce_variance = false) →
      alphaSeq convex reduce_variance alpha t = alpha) := by
  constructor
  · intro h
    simp only [alphaSeq, if_pos h]
  · intro h
    induction t with
    | zero => rfl
    | succ n ih => simp only [alphaSeq, if_neg h]; exact ih

/-- Witness for C6: at `(convex, VR) = (true, false)` the step size at
iteration 4 is `1/5^0.51`; at `(false, true)` it stays `1`. -/
theorem C6_step_size_policy_witness :
    alphaSeq true false 1 4 = 1 / ((3 : ℝ) + 2) ^ (0.51 : ℝ) ∧
    alphaSeq false true 1 4 = 1 :=
  ⟨(C6_step_size_policy true false 1 3).1 ⟨rfl, rfl⟩,
   (C6_step_size_policy false true 1 4).2 (by simp)⟩

/-! ## Default parameters and in-place update of the caller's `params` dict -/

/-- The full default parameter record built by `get_default_spp_params`. -/
structure SppParams where
  alpha : ℝ
  max_iter : ℕ
  batch_size : ℕ
  sample_style : String
  reduce_variance : Bool
  m_iter : ℕ
  vr_skip : ℕ
  tol_sub : ℚ
  newton_params : NewtonParams

/-- `get_default_spp_params(f)`: `b = max(int(N*0.005), 1)`, `m = 10`,
`a = snspp_theoretical_step_size(f, b, m, 0.5)`, and the dictionary
`{'alpha': a, 'max_iter': 100, 'batch_size': b, 'sample_style': 'constant',
'reduce_variance': False, 'm_iter': 10, 'vr_skip': 0, 'tol_sub': 1e-3,
'newton_params': get_default_newton_params()}`. -/
noncomputable def get_default_spp_params (A : List (List ℝ)) (name : String)
    (convex : Bool) (gammas : List ℝ) (N : ℕ) : SppParams :=
  let b := max (N * 5 / 1000) 1
  ⟨snspp_theoretical_step_size A name convex gammas (b : ℝ) 10 (1/2),
   100, b, "constant", false, 10, 0, 1/1000, get_default_newton_params⟩

/-- The caller's `params` dictionary for SNSPP: a key is present (`some`)
or absent (`none`). -/
structure SppParamsOpt where
  alpha : Option ℝ
  max_iter : Option ℕ
  batch_size : Option ℕ
  sample_style : Option String
  reduce_variance : Option Bool
  m_iter : Option ℕ
  vr_skip : Option ℕ
  tol_sub : Option ℚ
  newton_params : Option NewtonParams

/-- Insert a default value for an absent key, keep a present one. -/
def fillOpt {α : Type} (x : Option α) (d : α) : Option α :=
  match x with
  | none => some d
  | some v => some v

/-- `params.update({k: v for k, v in params_def.items() if k not in params})`
(spp_solver.py lines 219-220): the caller's dictionary after the call. -/
def spp_update_params (p : SppParamsOpt) (d : SppParams) : SppParamsOpt :=
  ⟨fillOpt p.alpha d.alpha, fillOpt p.max_iter d.max_iter,
   fillOpt p.batch_size d.batch_size, fillOpt p.sample_style d.sample_style,
   fillOpt p.reduce_variance d.reduce_variance, fillOpt p.m_iter d.m_iter,
   fillOpt p.vr_skip d.vr_skip, fillOpt p.tol_sub d.tol_sub,
   fillOpt p.newton_params d.newton_params⟩

/-- The caller's `params` dictionary for SAGA. -/
structure SagaParamsOpt where
  n_epochs : Option ℕ
  reg : Option ℚ
  alpha : Option ℝ

/-- The parameter defaulting in `saga` (saga.py lines 34-50): `n_epochs`
defaults to 10 and `reg` to 0, both written into the caller's dictionary;
a missing `alpha` is derived locally from the loss and NOT written back. -/
def saga_update_params (q : SagaParamsOpt) : SagaParamsOpt :=
  ⟨fillOpt q.n_epochs 10, fillOpt q.reg 0, q.alpha⟩

/-- An empty caller dictionary for SNSPP. -/
def emptySppParams : SppParamsOpt :=
  ⟨none, none, none, none, none, none, none, none, none⟩

/-- C7: when the caller's `params` has no key `reduce_variance`, the value
filled in from `get_default_spp_params` — and hence used by the solver — is
`False` (the function docstring documents the default as `True`). -/
theorem C7_default_reduce_variance (A : List (List ℝ)) (name : String)
    (convex : Bool) (gammas : List ℝ) (N : ℕ) (p : SppParamsOpt)
    (h : p.reduce_variance = none) :
    (spp_update_params p (get_default_spp_params A name convex gammas N)).reduce_variance =
      some false := by
  simp only [spp_update_params, get_default_spp_params, h, fillOpt]

/-- Witness for C7: instantiated at an empty caller dictionary. -/
theorem C7_default_reduce_variance_witness :
    (spp_update_params emptySppParams
      (get_default_spp_params [[1]] "squared" true [] 4)).reduce_variance = some false :=
  C7_default_reduce_variance [[1]] "squared" true [] 4 emptySppParams rfl

/-- C10 counterexample: calling `saga` with an empty caller dictionary fills
`n_epochs` and `reg`, but the recognized option `alpha` (read from `params`
when present) is still absent afterwards — so not every recognized option
that was absent before the call is filled in. -/
theorem C10_saga_alpha_not_filled_counterexample :
    saga_update_params ⟨none, none, none⟩ = ⟨some 10, some 0, none⟩ ∧
    (saga_update_params ⟨none, none, none⟩).alpha = none := by
  exact ⟨rfl, rfl⟩

/-- C10 (amended): both solvers mutate the caller-supplied dictionary in
place; SNSPP fills every recognized option that was absent (alpha, max_iter,
batch_size, sample_style, reduce_variance, m_iter, vr_skip, tol_sub,
newton_params) with its default, while SAGA fills only `n_epochs` and `reg` —
a missing `alpha` is derived locally and not written into the dictionary. -/
theorem C10_params_filled (p : SppParamsOpt) (d : SppParams) (q : SagaParamsOpt) :
    ((spp_update_params p d).alpha.isSome ∧
     (spp_update_params p d).max_iter.isSome ∧
     (spp_update_params p d).batch_size.isSome ∧
     (spp_update_params p d).sample_style.isSome ∧
     (spp_update_params p d).reduce_variance.isSome ∧
     (spp_update_params p d).m_iter.isSome ∧
     (spp_update_params p d).vr_skip.isSome ∧
     (spp_update_params p d).tol_sub.isSome ∧
     (spp_update_params p d).newton_params.isSome) ∧
    ((saga_update_params q).n_epochs = fillOpt q.n_epochs 10 ∧
     (saga_update_params q).reg = fillOpt q.reg 0 ∧
     (saga_update_params q).alpha = q.alpha) := by
  refine ⟨⟨?_, ?_, ?_, ?_, ?_, ?_, ?_, ?_, ?_⟩, rfl, rfl, rfl⟩ <;>
    · simp only [spp_update_params, fillOpt]
      split <;> rfl

/-! ## The SAGA step (saga.py lines 78-95, scalar samples `m_i = 1`) -/

/-- Rearrangement used by the SAGA direction: `a + ((-1)·b + c) = (a - b) + c`
componentwise. -/
theorem vecAdd_neg_left (a b c : List ℚ) :
    vecAdd a (vecAdd (smul (-1) b) c) = vecAdd (vecSub a b) c := by
  induction a generalizing b c with
  | nil => simp [vecAdd, vecSub]
  | cons x xs ih =>
    cases b with
    | nil => simp [vecAdd, vecSub, smul]
    | cons y ys =>
      cases c with
      | nil => simp [vecAdd, vecSub, smul]
      | cons z zs =>
        simp only [vecAdd, vecSub, smul, List.map, List.zipWith]
        have h1 : (x + (-1 * y + z)) = (x - y + z) := by ring
        rw [h1]
        have h2 := ih ys zs
        simp only [vecAdd, vecSub, smul] at h2
        rw [h2]

/-- Mutable state of the SAGA loop: iterate `x_t`, per-sample gradient table
`gradients`, running sum `g_sum = (1/N)·Σ_i gradients_i`. -/
structure SagaState where
  x : List ℚ
  gradients : List (List ℚ)
  g_sum : List ℚ

/-- One SAGA step at sample `j` (saga.py lines 82-95): `A_j = A[dims == j]`,
`g = A_j.T @ f.g(A_j @ x_t, j)`, `g_j = gradients[j]`,
`old_g = (-1)·g_j + g_sum`, `w_t = x_t - alpha·(g + old_g)`,
`gradients[j] = g`, `g_sum = g_sum - (1/N)·g_j + (1/N)·g`,
`x_t = phi.prox(w_t, alpha)`. -/
def saga_step (g : ℚ → ℕ → ℚ) (A : List (List ℚ)) (N : ℕ)
    (prox : List ℚ → ℚ → List ℚ) (alpha : ℚ) (j : ℕ) (st : SagaState) : SagaState :=
  let A_j := A.getD j []
  let g_new := smul (g (dot A_j st.x) j) A_j
  let g_j := st.gradients.getD j []
  let old_g := vecAdd (smul (-1) g_j) st.g_sum
  let w := vecSub st.x (smul alpha (vecAdd g_new old_g))
  ⟨prox w alpha, st.gradients.set j g_new,
   vecAdd (vecSub st.g_sum (smul (1/(N:ℚ)) g_j)) (smul (1/(N:ℚ)) g_new)⟩

/-- C5: with `g_new = A_j^T g_j(A_j x)` the SAGA step updates the running sum
to `ḡ - G_j/N + g_new/N`, replaces gradient-table row `j` by `g_new`, and
moves the iterate to `prox_{αφ}(x - α(g_new - G_j + ḡ))`, where `G_j` and `ḡ`
denote the pre-step table row and running sum. -/
theorem C5_saga_step (g : ℚ → ℕ → ℚ) (A : List (List ℚ)) (N : ℕ)
    (prox : List ℚ → ℚ → List ℚ) (alpha : ℚ) (j : ℕ) (st : SagaState) :
    (saga_step g A N prox alpha j st).g_sum =
      vecAdd (vecSub st.g_sum (smul (1/(N:ℚ)) (st.gradients.getD j [])))
        (smul (1/(N:ℚ)) (smul (g (dot (A.getD j []) st.x) j) (A.getD j []))) ∧
    (saga_step g A N prox alpha j st).gradients =
      st.gradients.set j (smul (g (dot (A.getD j []) st.x) j) (A.getD j [])) ∧
    (saga_step g A N prox alpha j st).x =
      prox (vecSub st.x (smul alpha
        (vecAdd (vecSub (smul (g (dot (A.getD j []) st.x) j) (A.getD j []))
                        (st.gradients.getD j []))
                st.g_sum))) alpha := by
  refine ⟨rfl, rfl, ?_⟩
  simp only [saga_step]
  rw [vecAdd_neg_left]

/-! ## Variance-reduction refresh (spp_solver.py lines 289-303, scalar case) -/

/-- Snapshot state of the variance-reduction machinery: `xi_tilde` (ξ̃),
`full_g = (1/N)·A^T ξ̃`, and the dual vector `xi`. -/
structure VRState where
  xi_tilde : Option (List ℚ)
  full_g : Option (List ℚ)
  xi : List ℚ

/-- Modelled from the spec: `compute_full_xi` lives in snspp/helper/utils.py,
which is absent from src. Spec §4.6: the full dual vector at `x` has, in the
scalar case, components `ξ̃_i = g_i(A_i x)`. -/
def compute_full_xi (g : ℚ → ℕ → ℚ) (A : List (List ℚ)) (x : List ℚ) : List ℚ :=
  A.enum.map (fun p => g (dot p.2 x) p.1)

/-- The refresh step of the outer loop (lines 289-303, scalar `is_easy` case):
if `params['reduce_variance']` and `iter_t % m_iter == vr_skip`, set
`xi_tilde = compute_full_xi(f, x_t)`, `full_g = (1/N)(A.T @ xi_tilde)` and
`xi = xi_tilde` (convex) or `xi = xi_tilde + gammas*(A @ x_t)` (weakly
convex); otherwise leave the state untouched. -/
def vr_refresh (convex : Bool) (weak_conv : ℕ → ℚ) (g : ℚ → ℕ → ℚ)
    (A : List (List ℚ)) (N : ℕ) (reduce_variance : Bool) (m_iter vr_skip t : ℕ)
    (x : List ℚ) (st : VRState) : VRState :=
  if reduce_variance = true ∧ t % m_iter = vr_skip then
    let xt := compute_full_xi g A x
    let fg := smul (1/(N:ℚ)) (matTvec A xt x.length)
    let xi1 := if convex then xt
      else vecAdd xt (vecMul ((List.range N).map weak_conv) (matVec A x))
    ⟨some xt, some fg, xi1⟩
  else st

/-- C2: with variance reduction enabled, at exactly the iterations `t` with
`t % m_iter = vr_skip` the snapshot is refreshed — `ξ̃` becomes the full dual
vector at `x_t`, `full_g` becomes `(1/N)·A^T ξ̃` (the VR invariant), and `ξ`
becomes `ξ̃` for convex losses and `ξ̃ + γ ⊙ (A x_t)` for weakly convex scalar
losses; at every other iteration the refresh leaves the state unchanged. -/
theorem C2_vr_refresh (convex : Bool) (wc : ℕ → ℚ) (g : ℚ → ℕ → ℚ)
    (A : List (List ℚ)) (N : ℕ) (rv : Bool) (m_iter vr_skip t : ℕ)
    (x : List ℚ) (st : VRState) (hrv : rv = true) :
    (t % m_iter = vr_skip →
      (vr_refresh convex wc g A N rv m_iter vr_skip t x st).xi_tilde =
        some (compute_full_xi g A x) ∧
      (vr_refresh convex wc g A N rv m_iter vr_skip t x st).full_g =
        some (smul (1/(N:ℚ)) (matTvec A (compute_full_xi g A x) x.length)) ∧
      (convex = true →
        (vr_refresh convex wc g A N rv m_iter vr_skip t x st).xi =
          compute_full_xi g A x) ∧
      (convex = false →
        (vr_refresh convex wc g A N rv m_iter vr_skip t x st).xi =
          vecAdd (compute_full_xi g A x)
            (vecMul ((List.range N).map wc) (matVec A x)))) ∧
    (t % m_iter ≠ vr_skip →
      vr_refresh convex wc g A N rv m_iter vr_skip t x st = st) := by
  subst hrv
  constructor
  · intro h
    simp only [vr_refresh]
    rw [if_pos (And.intro trivial h)]
    refine ⟨rfl, rfl, ?_, ?_⟩
    · intro hcvx; subst hcvx; rfl
    · intro hcvx; subst hcvx; rfl
  · intro h
    simp only [vr_refresh]
    rw [if_neg]
    intro hcon
    exact h hcon.2

/-- Witness for C2: a convex scalar problem with `A = [[1]]`, `g(z) = 2z`,
`x_t = [3]`, `m_iter = 2`, `vr_skip = 1`: iteration `t = 3` refreshes the
snapshot, iteration `t = 2` leaves it unchanged. -/
theorem C2_vr_refresh_witness :
    ((vr_refresh true (fun _ => 0) (fun z _ => 2 * z) [[1]] 1 true 2 1 3 [3]
        ⟨none, none, [0]⟩).xi_tilde =
      some (compute_full_xi (fun z _ => 2 * z) [[1]] [3]) ∧
     (vr_refresh true (fun _ => 0) (fun z _ => 2 * z) [[1]] 1 true 2 1 3 [3]
        ⟨none, none, [0]⟩).full_g =
      some (smul (1/(1:ℚ))
        (matTvec [[1]] (compute_full_xi (fun z _ => 2 * z) [[1]] [3]) 1)) ∧
     (vr_refresh true (fun _ => 0) (fun z _ => 2 * z) [[1]] 1 true 2 1 3 [3]
        ⟨none, none, [0]⟩).xi =
      compute_full_xi (fun z _ => 2 * z) [[1]] [3]) ∧
    vr_refresh true (fun _ => 0) (fun z _ => 2 * z) [[1]] 1 true 2 1 2 [3]
        ⟨none, none, [0]⟩ = ⟨none, none, [0]⟩ := by
  have h1 := C2_vr_refresh true (fun _ => 0) (fun z _ => 2 * z) [[1]] 1 true 2 1 3 [3]
    ⟨none, none, [0]⟩ rfl
  have h2 := C2_vr_refresh true (fun _ => 0) (fun z _ => 2 * z) [[1]] 1 true 2 1 2 [3]
    ⟨none, none, [0]⟩ rfl
  exact ⟨⟨(h1.1 (by decide)).1, (h1.1 (by decide)).2.1, (h1.1 (by decide)).2.2.1 rfl⟩,
         h2.2 (by decide)⟩

/-! ## Subproblem objective, residual and Armijo line search
(spp_solver.py: `Ueval` lines 391-407, `solve_subproblem` lines 458-538,
scalar `m_i = 1` path; the Newton direction `d` is produced by the external
`scipy.sparse.linalg.cg` call and is an input here) -/

/-- `lsq.fstar` (lasso.py line 36-37), scalar case:
`0.25*||x||² + b_i * x`. -/
def lsq_fstar (b : List ℚ) (xi : ℚ) (i : ℕ) : ℚ := (1/4) * xi^2 + b.getD i 0 * xi

/-- `lsq.gstar` (lasso.py line 39-40), scalar case: `0.5*x + b_i`. -/
def lsq_gstar (b : List ℚ) (xi : ℚ) (i : ℕ) : ℚ := (1/2) * xi + b.getD i 0

/-- `Ueval(xi_stack, f, phi, x, alpha, S, sub_dims, subA, hat_d)` for the
scalar case (`f.m.max() == 1` branch):
`z = x - (alpha/|S|)·(subA.T @ xi_stack) + hat_d`,
`term2 = 0.5*||z||² - phi.moreau(z, alpha)`,
`term1 = Σ_l f.fstar(xi_stack[l], S[l])`, returning
`term1 + (|S|/alpha)·term2`. -/
def Ueval (fstar : ℚ → ℕ → ℚ) (moreau : List ℚ → ℚ → ℚ) (x : List ℚ) (alpha : ℚ)
    (S : List ℕ) (subA : List (List ℚ)) (hat_d : List ℚ) (xi_stack : List ℚ) : ℚ :=
  let s : ℚ := (S.length : ℚ)
  let z := vecAdd (vecSub x (smul (alpha / s) (matTvec subA xi_stack x.length))) hat_d
  let term2 := (1/2) * sqnorm z - moreau z alpha
  let term1 := ((S.zip xi_stack).map (fun p => fstar p.2 p.1)).sum
  term1 + (s / alpha) * term2

/-- The Newton right-hand side built in `solve_subproblem` (lines 475-476):
`rhs = -1·(hstack(f.gstar(xi[i], i) for i in S) - subA @ phi.prox(z, alpha))`;
the optimality residual of §4.7 is `r = -rhs`. -/
def sub_rhs (gstar : ℚ → ℕ → ℚ) (prox : List ℚ → ℚ → List ℚ) (x : List ℚ)
    (alpha : ℚ) (S : List ℕ) (subA : List (List ℚ)) (hat_d : List ℚ)
    (xi_stack : List ℚ) : List ℚ :=
  let s : ℚ := (S.length : ℚ)
  let z := vecAdd (vecSub x (smul (alpha / s) (matTvec subA xi_stack x.length))) hat_d
  smul (-1) (vecSub ((S.zip xi_stack).map (fun p => gstar p.2 p.1))
    (matVec subA (prox z alpha)))

/-- The backtracking loop of `solve_subproblem` (lines 523-531): starting
from `beta`, shrink by `rho` while
`U(xi_stack + beta*d) > U(xi_stack) + mu*beta*(d @ -rhs)`; the `while` loop
has no iteration bound, so the embedding carries explicit fuel and returns
`none` when it is exhausted. -/
def armijo_search (U : List ℚ → ℚ) (xi_stack d rhs : List ℚ) (mu rho : ℚ) :
    ℕ → ℚ → Option ℚ
  | 0, _ => none
  | fuel + 1, beta =>
    if U (vecAdd xi_stack (smul beta d)) ≤
        U xi_stack + mu * beta * dot d (smul (-1) rhs)
    then some beta
    else armijo_search U xi_stack d rhs mu rho fuel (rho * beta)

/-- The full line search: `beta = 1.` initially (line 524). -/
def line_search (U : List ℚ → ℚ) (xi_stack d rhs : List ℚ) (mu rho : ℚ)
    (fuel : ℕ) : Option ℚ :=
  armijo_search U xi_stack d rhs mu rho fuel 1

/-- Characterization of `armijo_search` from an arbitrary starting step. -/
theorem armijo_search_spec (U : List ℚ → ℚ) (xi_stack d rhs : List ℚ)
    (mu rho : ℚ) :
    ∀ (fuel : ℕ) (b0 beta : ℚ),
      armijo_search U xi_stack d rhs mu rho fuel b0 = some beta →
      ∃ k : ℕ, beta = rho ^ k * b0 ∧
        (U (vecAdd xi_stack (smul beta d)) ≤
          U xi_stack + mu * beta * dot d (smul (-1) rhs)) ∧
        ∀ j < k, ¬ (U (vecAdd xi_stack (smul (rho ^ j * b0) d)) ≤
            U xi_stack + mu * (rho ^ j * b0) * dot d (smul (-1) rhs)) := by
  intro fuel
  induction fuel with
  | zero => intro b0 beta h; simp [armijo_search] at h
  | succ n ih =>
    intro b0 beta h
    rw [armijo_search] at h
    by_cases hacc : U (vecAdd xi_stack (smul b0 d)) ≤
        U xi_stack + mu * b0 * dot d (smul (-1) rhs)
    · rw [if_pos hacc] at h
      obtain rfl : b0 = beta := by injection h
      exact ⟨0, by ring_nf, hacc, fun j hj => absurd hj (Nat.not_lt_zero j)⟩
    · rw [if_neg hacc] at h
      obtain ⟨k, hb, ha, hprev⟩ := ih (rho * b0) beta h
      refine ⟨k + 1, by rw [hb, pow_succ]; ring, ha, ?_⟩
      intro j hj
      cases j with
      | zero => simpa using hacc
      | succ i =>
        have hi := hprev i (by omega)
        have e : rho ^ (i + 1) * b0 = rho ^ i * (rho * b0) := by rw [pow_succ]; ring
        rw [e]; exact hi

/-- C3 (amended): starting from `β = 1` and shrinking by `ρ`, the step the
code accepts is the first `β ∈ {1, ρ, ρ², …}` with
`U(ξ_S + βd) ≤ U(ξ_S) + μ·β·(d · r)` where `r = -rhs` is the optimality
residual `g*(ξ_S) - A_S·prox(z(ξ_S))` — i.e. the code's `d @ -rhs` — not
`d · (-r)` as claimed. -/
theorem C3_line_search_first_accepted (U : List ℚ → ℚ) (xi_stack d rhs : List ℚ)
    (mu rho : ℚ) (fuel : ℕ) (beta : ℚ)
    (h : line_search U xi_stack d rhs mu rho fuel = some beta) :
    ∃ k : ℕ, beta = rho ^ k ∧
      (U (vecAdd xi_stack (smul beta d)) ≤
        U xi_stack + mu * beta * dot d (smul (-1) rhs)) ∧
      ∀ j < k, ¬ (U (vecAdd xi_stack (smul (rho ^ j) d)) ≤
          U xi_stack + mu * (rho ^ j) * dot d (smul (-1) rhs)) := by
  obtain ⟨k, hb, ha, hp⟩ := armijo_search_spec U xi_stack d rhs mu rho fuel 1 beta h
  refine ⟨k, by simpa using hb, ha, ?_⟩
  intro j hj
  have := hp j hj
  simpa using this

/-- The subproblem objective of the concrete LASSO instance used to separate
the code's Armijo condition from the claimed one: squared loss with `b = [0]`,
`φ = 10·||·||₁`, `x = [0]`, `α = 1`, `S = [0]`, `A_S = [[1]]`, no VR term. -/
def exU : List ℚ → ℚ := Ueval (lsq_fstar [0]) (Norm1.moreau 10) [0] 1 [0] [[1]] [0]

/-- The cg output fed to the line search in the concrete instance. -/
def exd : List ℚ := [-(12/5)]

/-- The Newton right-hand side of the concrete instance (`rhs = -r`). -/
def exrhs : List ℚ := [-(1/2)]

/-- C3 counterexample: in the concrete instance, `rhs` is indeed `-r` for the
dual value `ξ_S = [1]`; the code's line search accepts `β = 1/2`, yet `β = 1`
already satisfies the claimed inequality `U(ξ_S + βd) ≤ U(ξ_S) + μ·β·(d·(-r))`
(with `d·(-r) = d·rhs`), so the code does not use the first `β` satisfying the
claimed condition. -/
theorem C3_armijo_sign_counterexample :
    sub_rhs (lsq_gstar [0]) (Norm1.prox 10) [0] 1 [0] [[1]] [0] [1] = exrhs ∧
    line_search exU [1] exd exrhs (2/5) (1/2) 10 = some (1/2) ∧
    (exU (vecAdd [1] (smul 1 exd)) ≤ exU [1] + (2/5) * 1 * dot exd exrhs) ∧
    ((1 : ℚ)/2) ≠ 1 := by
  have u1 : exU [1] = 1/4 := by
    norm_num [exU, Ueval, lsq_fstar, Norm1.moreau, Norm1.prox, Norm1.eval, qsign,
      vecAdd, vecSub, smul, matTvec, matVec, dot, sqnorm, max_def, abs]
  have u2 : exU (vecAdd [1] (smul 1 exd)) = 49/100 := by
    norm_num [exU, exd, Ueval, lsq_fstar, Norm1.moreau, Norm1.prox, Norm1.eval, qsign,
      vecAdd, vecSub, smul, matTvec, matVec, dot, sqnorm, max_def, abs]
  have u3 : exU (vecAdd [1] (smul ((1:ℚ)/2 * 1) exd)) = 1/100 := by
    norm_num [exU, exd, Ueval, lsq_fstar, Norm1.moreau, Norm1.prox, Norm1.eval, qsign,
      vecAdd, vecSub, smul, matTvec, matVec, dot, sqnorm, max_def, abs]
  have hd : dot exd (smul (-1) exrhs) = -(6/5) := by
    norm_num [exd, exrhs, dot, smul]
  have hd2 : dot exd exrhs = 6/5 := by
    norm_num [exd, exrhs, dot]
  refine ⟨?_, ?_, ?_, by norm_num⟩
  · norm_num [sub_rhs, exrhs, lsq_gstar, Norm1.prox, qsign, vecAdd, vecSub, smul,
      matTvec, matVec, dot, max_def, abs]
  · rw [line_search, armijo_search, if_neg (by rw [u2, u1, hd]; norm_num)]
    rw [armijo_search, if_pos (by rw [u3, u1, hd]; norm_num)]
    norm_num
  · rw [u2, u1, hd2]
    norm_num

/-- Witness for C3 (amended): applied to the concrete instance, where the
line search returns `β = 1/2`. -/
theorem C3_line_search_first_accepted_witness :
    ∃ k : ℕ, ((1:ℚ)/2) = ((1:ℚ)/2) ^ k ∧
      (exU (vecAdd [1] (smul ((1:ℚ)/2) exd)) ≤
        exU [1] + (2/5) * ((1:ℚ)/2) * dot exd (smul (-1) exrhs)) ∧
      ∀ j < k, ¬ (exU (vecAdd [1] (smul (((1:ℚ)/2) ^ j) exd)) ≤
          exU [1] + (2/5) * (((1:ℚ)/2) ^ j) * dot exd (smul (-1) exrhs)) := by
  apply C3_line_search_first_accepted exU [1] exd exrhs (2/5) (1/2) 10 (1/2)
  have u1 : exU [1] = 1/4 := by
    norm_num [exU, Ueval, lsq_fstar, Norm1.moreau, Norm1.prox, Norm1.eval, qsign,
      vecAdd, vecSub, smul, matTvec, matVec, dot, sqnorm, max_def, abs]
  have u2 : exU (vecAdd [1] (smul 1 exd)) = 49/100 := by
    norm_num [exU, exd, Ueval, lsq_fstar, Norm1.moreau, Norm1.prox, Norm1.eval, qsign,
      vecAdd, vecSub, smul, matTvec, matVec, dot, sqnorm, max_def, abs]
  have u3 : exU (vecAdd [1] (smul ((1:ℚ)/2 * 1) exd)) = 1/100 := by
    norm_num [exU, exd, Ueval, lsq_fstar, Norm1.moreau, Norm1.prox, Norm1.eval, qsign,
      vecAdd, vecSub, smul, matTvec, matVec, dot, sqnorm, max_def, abs]
  have hd : dot exd (smul (-1) exrhs) = -(6/5) := by
    norm_num [exd, exrhs, dot, smul]
  rw [line_search, armijo_search, if_neg (by rw [u2, u1, hd]; norm_num)]
  rw [armijo_search, if_pos (by rw [u3, u1, hd]; norm_num)]
  norm_num

end Snspp
